import Mathlib

/-!
Shallow embedding of the walletd repository: the chain-update applier and
reverter (`wallet/update.go`) and the UTXO reservation and funding engine
(`api/server.go`), together with theorems settling the specification's claims.

Machine integers: `types.Currency` (u128) is modelled as `Nat`; siafund
amounts are Go `uint64`, so siafund arithmetic is taken explicitly
modulo `2 ^ 64`.  Hashes and addresses are modelled as `Nat`.
-/

namespace Walletd

/-- A 32-byte address hash (`types.Address`), modelled as a natural number. -/
abbrev Addr := Nat

/-- A 32-byte hash (`types.Hash256`: output ids, block ids), modelled as a natural number. -/
abbrev Hash256 := Nat

/-- `types.VoidAddress`, the all-zero address. -/
def voidAddress : Addr := 0

/-- The u64 modulus for Go `uint64` siafund arithmetic. -/
def U64 : Nat := 2 ^ 64

/-- Wrapping u64 addition (Go `+=` on `uint64`). -/
def u64add (a b : Nat) : Nat := (a + b) % U64

/-- Wrapping u64 subtraction (Go `-=` on `uint64`). -/
def u64sub (a b : Nat) : Nat := (a + (U64 - b % U64)) % U64

/-- Modelled from the spec: `wallet.Balance` (the wallet package's type
declarations are not under src/; the field set is pinned by §3 of the spec
and by every use in `wallet/update.go`): siacoins and immature siacoins are
u128 `types.Currency`, siafunds a Go `uint64`. -/
structure Balance where
  siacoins : Nat
  immatureSiacoins : Nat
  siafunds : Nat
deriving DecidableEq, Repr

/-- The zero balance (`AddressBalance` of an unknown address). -/
def zeroBalance : Balance := ⟨0, 0, 0⟩

/-- `types.StateElement`: id, leaf index and Merkle proof of one accumulator leaf. -/
structure StateElement where
  id : Hash256
  leafIndex : Nat
  merkleProof : List Hash256
deriving DecidableEq, Repr

/-- `types.SiacoinOutput`. -/
structure SiacoinOutput where
  value : Nat
  address : Addr
deriving DecidableEq, Repr

/-- `types.SiafundOutput`. -/
structure SiafundOutput where
  value : Nat
  address : Addr
deriving DecidableEq, Repr

/-- `types.SiacoinElement`. -/
structure SiacoinElement where
  stateElement : StateElement
  siacoinOutput : SiacoinOutput
  maturityHeight : Nat
deriving DecidableEq, Repr

/-- `types.SiafundElement`. -/
structure SiafundElement where
  stateElement : StateElement
  siafundOutput : SiafundOutput
  claimStart : Nat
deriving DecidableEq, Repr

/-- The promoted `ID` field of a siacoin element (`se.ID` in Go). -/
def SiacoinElement.id (se : SiacoinElement) : Hash256 := se.stateElement.id

/-- The promoted `ID` field of a siafund element (`se.ID` in Go). -/
def SiafundElement.id (se : SiafundElement) : Hash256 := se.stateElement.id

/-- `types.SiacoinInput` (unlock conditions are irrelevant to the claims and omitted). -/
structure SiacoinInput where
  parentID : Hash256
deriving DecidableEq, Repr

/-- `types.SiafundInput`. -/
structure SiafundInput where
  parentID : Hash256
  claimAddress : Addr
deriving DecidableEq, Repr

/-- `types.Transaction` (the fields the embedded code reads).  `txid` stands
for the transaction's id, from which output ids are derived. -/
structure Transaction where
  txid : Hash256
  siacoinInputs : List SiacoinInput
  siacoinOutputs : List SiacoinOutput
  siafundInputs : List SiafundInput
  siafundOutputs : List SiafundOutput
deriving DecidableEq, Repr

/-- Injective pairing, standing in for the collision-resistant output-id hash. -/
def hashPair (a b : Nat) : Nat := (a + b) * (a + b + 1) / 2 + b

/-- `txn.SiacoinOutputID(i)`: the id of the transaction's `i`-th siacoin output. -/
def Transaction.siacoinOutputID (t : Transaction) (i : Nat) : Hash256 :=
  hashPair (2 * t.txid) i

/-- `txn.SiafundOutputID(i)`: the id of the transaction's `i`-th siafund output
(domain-separated from siacoin output ids). -/
def Transaction.siafundOutputID (t : Transaction) (i : Nat) : Hash256 :=
  hashPair (2 * t.txid + 1) i

/-- `types.ChainIndex`. -/
structure ChainIndex where
  height : Nat
  id : Hash256
deriving DecidableEq, Repr

/-- A block: its id, its v1 transactions (`Block.Transactions`) and its v2
transactions (`Block.V2.Transactions`; the empty list models a block with no
v2 data). -/
structure Block where
  id : Hash256
  transactions : List Transaction
  v2Transactions : List Transaction
deriving DecidableEq, Repr

/-- The part of `consensus.State` the embedded code reads. -/
structure ChainState where
  index : ChainIndex
deriving DecidableEq, Repr

/-! ## The funding engine (`api/server.go`) -/

/-- The error string of `errors.New("insufficient balance")`. -/
def insufficientBalanceErr : String := "insufficient balance"

/-- The error string of `errors.New("change address must be specified")`. -/
def changeAddressRequiredErr : String := "change address must be specified"

/-- The mempool-spent set of `fundTxn`: the `ParentID`s of the siacoin inputs
of all pool transactions. -/
def scInPool (pool : List Transaction) : List Hash256 :=
  pool.flatMap (fun t => t.siacoinInputs.map (·.parentID))

/-- The mempool-spent set of the siafund `fundTxn`: the `ParentID`s of the
siafund inputs of all pool transactions. -/
def sfInPool (pool : List Transaction) : List Hash256 :=
  pool.flatMap (fun t => t.siafundInputs.map (·.parentID))

/-- A siacoin UTXO is eligible when its id is neither reserved in `used` nor
spent by a mempool transaction. -/
def scEligible (used inPool : List Hash256) (sce : SiacoinElement) : Bool :=
  !(used.contains sce.id || inPool.contains sce.id)

/-- A siafund UTXO is eligible when its id is neither reserved in `used` nor
spent by a mempool transaction. -/
def sfEligible (used inPool : List Hash256) (sfe : SiafundElement) : Bool :=
  !(used.contains sfe.id || inPool.contains sfe.id)

/-- The greedy selection loop of the siacoin `fundTxn`: scan the (shuffled)
candidates, skip ineligible outputs, accumulate until the sum reaches
`amount`.  Returns the selected elements and their sum. -/
def scFundLoop (amount : Nat) (used inPool : List Hash256) :
    List SiacoinElement → List SiacoinElement → Nat → List SiacoinElement × Nat
  | [], acc, sum => (acc, sum)
  | sce :: rest, acc, sum =>
    if scEligible used inPool sce then
      let sum' := sum + sce.siacoinOutput.value
      if amount ≤ sum' then (acc ++ [sce], sum')
      else scFundLoop amount used inPool rest (acc ++ [sce]) sum'
    else scFundLoop amount used inPool rest acc sum

/-- The greedy selection loop of the siafund `fundTxn`; the running sum is a
Go `uint64`, so it accumulates with wrapping u64 addition. -/
def sfFundLoop (amount : Nat) (used inPool : List Hash256) :
    List SiafundElement → List SiafundElement → Nat → List SiafundElement × Nat
  | [], acc, sum => (acc, sum)
  | sfe :: rest, acc, sum =>
    if sfEligible used inPool sfe then
      let sum' := u64add sum sfe.siafundOutput.value
      if amount ≤ sum' then (acc ++ [sfe], sum')
      else sfFundLoop amount used inPool rest (acc ++ [sfe]) sum'
    else sfFundLoop amount used inPool rest acc sum

/-- The selection performed by the siacoin `fundTxn` closure of
`walletsFundHandler`, after the shuffle `σ`. -/
def scSelected (σ : List SiacoinElement → List SiacoinElement) (amount : Nat)
    (utxos : List SiacoinElement) (used : List Hash256) (pool : List Transaction) :
    List SiacoinElement × Nat :=
  scFundLoop amount used (scInPool pool) (σ utxos) [] 0

/-- The selection performed by the siafund `fundTxn` closure of
`walletsFundSFHandler`, after the shuffle `σ`. -/
def sfSelected (σ : List SiafundElement → List SiafundElement) (amount : Nat)
    (utxos : List SiafundElement) (used : List Hash256) (pool : List Transaction) :
    List SiafundElement × Nat :=
  sfFundLoop amount used (sfInPool pool) (σ utxos) [] 0

/-- The siacoin `fundTxn` closure of `walletsFundHandler`.  `σ` models the
uniformly random `frand.Shuffle` of the candidate list.  Returns the funded
transaction, the `toSign` list, and the updated `used` reservation set. -/
def scFundTxn (σ : List SiacoinElement → List SiacoinElement) (txn : Transaction)
    (amount : Nat) (utxos : List SiacoinElement) (changeAddr : Addr)
    (used : List Hash256) (pool : List Transaction) :
    Except String (Transaction × List Hash256 × List Hash256) :=
  if amount = 0 then .ok (txn, [], used)
  else
    let sel := scSelected σ amount utxos used pool
    if sel.2 < amount then .error insufficientBalanceErr
    else
      let finish : Transaction → Transaction × List Hash256 × List Hash256 :=
        fun t =>
          let toSign := sel.1.map (·.id)
          ({ t with siacoinInputs :=
              t.siacoinInputs ++ sel.1.map (fun e => ⟨e.id⟩) },
           toSign, toSign ++ used)
      if amount < sel.2 then
        if changeAddr = voidAddress then .error changeAddressRequiredErr
        else .ok (finish { txn with siacoinOutputs :=
          txn.siacoinOutputs ++ [⟨sel.2 - amount, changeAddr⟩] })
      else .ok (finish txn)

/-- The siafund `fundTxn` closure of `walletsFundSFHandler`; every appended
input is stamped with the claim address. -/
def sfFundTxn (σ : List SiafundElement → List SiafundElement) (txn : Transaction)
    (amount : Nat) (utxos : List SiafundElement) (changeAddr claimAddr : Addr)
    (used : List Hash256) (pool : List Transaction) :
    Except String (Transaction × List Hash256 × List Hash256) :=
  if amount = 0 then .ok (txn, [], used)
  else
    let sel := sfSelected σ amount utxos used pool
    if sel.2 < amount then .error insufficientBalanceErr
    else
      let finish : Transaction → Transaction × List Hash256 × List Hash256 :=
        fun t =>
          let toSign := sel.1.map (·.id)
          ({ t with siafundInputs :=
              t.siafundInputs ++ sel.1.map (fun e => ⟨e.id, claimAddr⟩) },
           toSign, toSign ++ used)
      if amount < sel.2 then
        if changeAddr = voidAddress then .error changeAddressRequiredErr
        else .ok (finish { txn with siafundOutputs :=
          txn.siafundOutputs ++ [⟨sel.2 - amount, changeAddr⟩] })
      else .ok (finish txn)

/-- Modelled from the spec: the wallet manager's paginated read
`UnspentSiacoinOutputs(id, offset, limit)` / `UnspentSiafundOutputs` — the
manager implementation is not under src/; §4.5 specifies offset/limit
pagination over the wallet's unspent outputs. -/
def paginate {α : Type} (l : List α) (offset limit : Nat) : List α :=
  (l.drop offset).take limit

/-- `walletsFundHandler`: fetches the first 1000 unspent siacoin outputs
(offset 0, limit 1000) and runs the funding closure on them. -/
def walletsFundHandler (σ : List SiacoinElement → List SiacoinElement)
    (walletOutputs : List SiacoinElement) (txn : Transaction) (amount : Nat)
    (changeAddr : Addr) (used : List Hash256) (pool : List Transaction) :
    Except String (Transaction × List Hash256 × List Hash256) :=
  scFundTxn σ txn amount (paginate walletOutputs 0 1000) changeAddr used pool

/-- `walletsFundSFHandler`: fetches the first 1000 unspent siafund outputs
(offset 0, limit 1000) and runs the funding closure on them. -/
def walletsFundSFHandler (σ : List SiafundElement → List SiafundElement)
    (walletOutputs : List SiafundElement) (txn : Transaction) (amount : Nat)
    (changeAddr claimAddr : Addr) (used : List Hash256) (pool : List Transaction) :
    Except String (Transaction × List Hash256 × List Hash256) :=
  sfFundTxn σ txn amount (paginate walletOutputs 0 1000) changeAddr claimAddr used pool

/-! ## Association-list helpers (Go maps, modelled in insertion order) -/

/-- Look a key up in an association list. -/
def alookup {β : Type} : List (Nat × β) → Nat → Option β
  | [], _ => none
  | (k', v) :: t, k => if k' = k then some v else alookup t k

/-- Set a key in an association list (replace in place, or append). -/
def aset {β : Type} : List (Nat × β) → Nat → β → List (Nat × β)
  | [], k, v => [(k, v)]
  | (k', v') :: t, k, v =>
    if k' = k then (k, v) :: t else (k', v') :: aset t k v

/-- Delete a key from an association list (Go `delete`). -/
def aerase {β : Type} (l : List (Nat × β)) (k : Nat) : List (Nat × β) :=
  l.filter (fun p => p.1 != k)

/-- Insert an id into a spent-id list unless already present (Go map-set of `true`). -/
def insertOnce (l : List Hash256) (x : Hash256) : List Hash256 :=
  if l.contains x then l else l ++ [x]

/-! ## The store-transaction interface (`UpdateTx`) and write trace -/

/-- The fallible read surface of `UpdateTx` that `ApplyChainUpdates` and
`RevertChainUpdate` consume; write operations are recorded in a trace. -/
structure TxModel where
  siacoinStateElements : Except String (List StateElement)
  siafundStateElements : Except String (List StateElement)
  maturedSiacoinElements : ChainIndex → Except String (List SiacoinElement)
  addressRelevant : Addr → Except String Bool
  addressBalance : Addr → Except String Balance

/-- An address paired with its balance (`wallet.AddressBalance`). -/
structure AddressBalance where
  address : Addr
  balance : Balance
deriving DecidableEq, Repr

/-- Modelled from the spec: a wallet event (`wallet.Event`; the wallet
package's event declarations are not under src/).  Only the chain index the
event is tagged with and its relevant addresses matter to the claims. -/
structure Event where
  index : ChainIndex
  relevantAddrs : List Addr
deriving DecidableEq, Repr

/-- One mutating store call issued by the applier or reverter, in issue order. -/
inductive WriteOp where
  | updateBalances (l : List AddressBalance)
  | addSiacoinElements (l : List SiacoinElement)
  | removeSiacoinElements (l : List Hash256)
  | addSiafundElements (l : List SiafundElement)
  | removeSiafundElements (l : List Hash256)
  | addEvents (l : List Event)
  | updateSiacoinStateElements (l : List StateElement)
  | updateSiafundStateElements (l : List StateElement)
  | revertEvents (i : ChainIndex)
deriving DecidableEq, Repr

/-- How a run of the applier or reverter can fail: a returned (wrapped) error,
or a Go `panic` aborting the process. -/
inductive RunFail where
  | err (msg : String)
  | fatal (msg : String)
deriving DecidableEq, Repr

/-! ## Chain updates -/

/-- `chain.ApplyUpdate`: the post-block state, the block, the element diffs
visited by `ForEachSiacoinElement` / `ForEachSiafundElement` (element, spent),
and the `UpdateElementProof` operation. -/
structure ApplyUpdate where
  state : ChainState
  block : Block
  siacoinDiffs : List (SiacoinElement × Bool)
  siafundDiffs : List (SiafundElement × Bool)
  proofUpdate : StateElement → StateElement

/-- `chain.RevertUpdate`: the state after the revert (the parent), the
reverted block, the element diffs, and the `UpdateElementProof` operation. -/
structure RevertUpdate where
  state : ChainState
  block : Block
  siacoinDiffs : List (SiacoinElement × Bool)
  siafundDiffs : List (SiafundElement × Bool)
  proofUpdate : StateElement → StateElement

/-! ## Ephemeral-output detection

Both functions walk the block's v1 transactions (`cau.Block.Transactions`)
to mark every output id created and spent inside the same block; v2
transactions are not visited by this walk. -/

/-- One transaction's step of the ephemeral walk: record created siacoin
output ids, mark spent siacoin parents, then the same for siafunds. -/
def ephemeralStep (acc : List Hash256 × List (Hash256 × Bool)) (txn : Transaction) :
    List Hash256 × List (Hash256 × Bool) :=
  let created1 := acc.1 ++ (List.range txn.siacoinOutputs.length).map txn.siacoinOutputID
  let eph1 := txn.siacoinInputs.foldl
    (fun m inp => aset m inp.parentID (created1.contains inp.parentID)) acc.2
  let created2 := created1 ++ (List.range txn.siafundOutputs.length).map txn.siafundOutputID
  let eph2 := txn.siafundInputs.foldl
    (fun m inp => aset m inp.parentID (created2.contains inp.parentID)) eph1
  (created2, eph2)

/-- The `ephemeral` map computed from a block's v1 transactions. -/
def ephemeralMap (b : Block) : List (Hash256 × Bool) :=
  (b.transactions.foldl ephemeralStep ([], [])).2

/-- `ephemeral[id]`: Go map lookup with `false` default. -/
def ephLookup (m : List (Hash256 × Bool)) (h : Hash256) : Bool :=
  (alookup m h).getD false

/-! ## Balance bookkeeping (the `updateBalance` closures) -/

/-- The `updateBalance` read half: take the address's balance from the
in-memory map, else from the store (wrapping a read error exactly as the
source does). -/
def getBalance (tx : TxModel) (bs : List (Addr × Balance)) (a : Addr) :
    Except String Balance :=
  match alookup bs a with
  | some b => .ok b
  | none =>
    match tx.addressBalance a with
    | .ok b => .ok b
    | .error e => .error ("failed to get address balance: " ++ e)

/-- `updateBalance` with an infallible mutation. -/
def updBal (tx : TxModel) (bs : List (Addr × Balance)) (a : Addr)
    (f : Balance → Balance) : Except String (List (Addr × Balance)) :=
  match getBalance tx bs a with
  | .ok b => .ok (aset bs a (f b))
  | .error e => .error e

/-- The applier's siafund balance mutation: a spend below zero is a fatal
invariant violation (`panic(fmt.Errorf("negative siafund balance"))`);
otherwise plain u64 arithmetic. -/
def applySiafundBalanceFn (spent : Bool) (v : Nat) (b : Balance) :
    Except RunFail Balance :=
  if spent then
    if b.siafunds < v then .error (.fatal "negative siafund balance")
    else .ok { b with siafunds := b.siafunds - v }
  else .ok { b with siafunds := u64add b.siafunds v }

/-- The reverter's siafund balance mutation: unchecked u64 arithmetic in both
directions (the subtraction wraps on underflow). -/
def revertSiafundBalanceFn (spent : Bool) (v : Nat) (b : Balance) : Balance :=
  if spent then { b with siafunds := u64add b.siafunds v }
  else { b with siafunds := u64sub b.siafunds v }

/-! ## The applier (`ApplyChainUpdates`) -/

/-- The in-memory accumulation of `ApplyChainUpdates`: pending events,
balances, new and spent elements, and the tracked state-element lists
fetched at batch start. -/
structure ApplyAcc where
  events : List Event
  balances : List (Addr × Balance)
  newSc : List (Hash256 × SiacoinElement)
  newSf : List (Hash256 × SiafundElement)
  spentSc : List Hash256
  spentSf : List Hash256
  scState : List StateElement
  sfState : List StateElement
deriving Repr

/-- One iteration of the applier's siacoin-element closure: skip ephemeral
ids, skip irrelevant addresses, record the new or spent element, then adjust
the owning address's balance by maturity. -/
def applyScStep (tx : TxModel) (height : Nat) (eph : Hash256 → Bool)
    (acc : ApplyAcc) (d : SiacoinElement × Bool) : Except String ApplyAcc :=
  if eph d.1.id then .ok acc
  else
    match tx.addressRelevant d.1.siacoinOutput.address with
    | .error e => .error ("failed to check if address is relevant: " ++ e)
    | .ok false => .ok acc
    | .ok true =>
      let acc1 :=
        if d.2 then
          { acc with newSc := aerase acc.newSc d.1.id,
                     spentSc := insertOnce acc.spentSc d.1.id }
        else { acc with newSc := aset acc.newSc d.1.id d.1 }
      match getBalance tx acc1.balances d.1.siacoinOutput.address with
      | .error e => .error ("failed to update address balance: " ++ e)
      | .ok b =>
        let v := d.1.siacoinOutput.value
        let b' :=
          if height < d.1.maturityHeight then
            { b with immatureSiacoins := b.immatureSiacoins + v }
          else if d.2 then { b with siacoins := b.siacoins - v }
          else { b with siacoins := b.siacoins + v }
        .ok { acc1 with balances := aset acc1.balances d.1.siacoinOutput.address b' }

/-- The applier's siacoin-element loop (`ForEachSiacoinElement` with the
`siacoinElementErr` short circuit). -/
def applyScFold (tx : TxModel) (height : Nat) (eph : Hash256 → Bool) :
    List (SiacoinElement × Bool) → ApplyAcc → Except String ApplyAcc
  | [], acc => .ok acc
  | d :: rest, acc =>
    match applyScStep tx height eph acc d with
    | .ok acc' => applyScFold tx height eph rest acc'
    | .error e => .error e

/-- One iteration of the applier's siafund-element closure.  An error is
stored in the `siafundElementErr` slot (second component) after which later
iterations do nothing; a siafund underflow panics. -/
def applySfStep (tx : TxModel) (eph : Hash256 → Bool)
    (st : ApplyAcc × Option String) (d : SiafundElement × Bool) :
    Except RunFail (ApplyAcc × Option String) :=
  match st.2 with
  | some e => .ok (st.1, some e)
  | none =>
    if eph d.1.id then .ok (st.1, none)
    else
      match tx.addressRelevant d.1.siafundOutput.address with
      | .error e => .ok (st.1, some ("failed to check if address is relevant: " ++ e))
      | .ok false => .ok (st.1, none)
      | .ok true =>
        let acc1 :=
          if d.2 then
            { st.1 with newSf := aerase st.1.newSf d.1.id,
                        spentSf := insertOnce st.1.spentSf d.1.id }
          else { st.1 with newSf := aset st.1.newSf d.1.id d.1 }
        match getBalance tx acc1.balances d.1.siafundOutput.address with
        | .error e => .ok (acc1, some ("failed to update address balance: " ++ e))
        | .ok b =>
          match applySiafundBalanceFn d.2 d.1.siafundOutput.value b with
          | .error f => .error f
          | .ok b' =>
            .ok ({ acc1 with balances := aset acc1.balances d.1.siafundOutput.address b' },
                 none)

/-- The applier's siafund-element loop.  Its result error slot is never
consulted by `ApplyChainUpdates` (the source has no
`if siafundElementErr != nil` check after this loop). -/
def applySfFold (tx : TxModel) (eph : Hash256 → Bool) :
    List (SiafundElement × Bool) → ApplyAcc × Option String →
    Except RunFail (ApplyAcc × Option String)
  | [], st => .ok st
  | d :: rest, st =>
    match applySfStep tx eph st d with
    | .ok st' => applySfFold tx eph rest st'
    | .error f => .error f

/-- The addresses a transaction pays (used by the event extractor model). -/
def txnAddrs (t : Transaction) : List Addr :=
  t.siacoinOutputs.map (·.address) ++ t.siafundOutputs.map (·.address)

/-- Keep the relevant addresses of a list; a store error inside the applier's
`relevant` closure is a Go `panic`. -/
def filterRelevant (rel : Addr → Except String Bool) :
    List Addr → Except RunFail (List Addr)
  | [] => .ok []
  | a :: rest =>
    match rel a with
    | .error e => .error (.fatal ("failed to check if address is relevant: " ++ e))
    | .ok true =>
      match filterRelevant rel rest with
      | .ok l => .ok (a :: l)
      | .error f => .error f
    | .ok false => filterRelevant rel rest

/-- Modelled from the spec: the event extractor `AppliedEvents` (the wallet
package's events code is not under src/).  Per §4.2 it is a pure function of
the post-block state, the block and the relevance predicate, emitting events
in block transaction order (v1 then v2) for each transaction with a relevant
address, tagged with the post-block chain index; event payloads and synthetic
maturation events are irrelevant to every claim and are not modelled. -/
def appliedEvents (st : ChainState) (b : Block)
    (rel : Addr → Except String Bool) : Except RunFail (List Event) :=
  (b.transactions ++ b.v2Transactions).foldl
    (fun acc t =>
      match acc with
      | .error f => .error f
      | .ok evs =>
        match filterRelevant rel (txnAddrs t) with
        | .error f => .error f
        | .ok [] => .ok evs
        | .ok rs => .ok (evs ++ [⟨st.index, rs⟩]))
    (.ok [])

/-- The matured-outputs phase of one applied update: move each matured
output's value from the immature to the mature balance of its address. -/
def applyMatured (tx : TxModel) : List SiacoinElement → List (Addr × Balance) →
    Except String (List (Addr × Balance))
  | [], bs => .ok bs
  | se :: rest, bs =>
    match updBal tx bs se.siacoinOutput.address (fun b =>
      { b with immatureSiacoins := b.immatureSiacoins - se.siacoinOutput.value,
               siacoins := b.siacoins + se.siacoinOutput.value }) with
    | .ok bs' => applyMatured tx rest bs'
    | .error e => .error ("failed to update address balance: " ++ e)

/-- Process one `chain.ApplyUpdate`: matured outputs, ephemeral detection,
the siacoin and siafund element loops, event extraction, and the per-update
proof refresh of pending new elements and tracked state elements. -/
def applyOneUpdate (tx : TxModel) (acc : ApplyAcc) (cau : ApplyUpdate) :
    Except RunFail ApplyAcc :=
  match tx.maturedSiacoinElements cau.state.index with
  | .error e => .error (.err ("failed to get matured siacoin elements: " ++ e))
  | .ok matured =>
    match applyMatured tx matured acc.balances with
    | .error e => .error (.err e)
    | .ok bs1 =>
      let acc := { acc with balances := bs1 }
      let eph := ephLookup (ephemeralMap cau.block)
      match applyScFold tx cau.state.index.height eph cau.siacoinDiffs acc with
      | .error e => .error (.err ("failed to add siacoin elements: " ++ e))
      | .ok acc2 =>
        match applySfFold tx eph cau.siafundDiffs (acc2, none) with
        | .error f => .error f
        | .ok (acc3, _) =>
          -- the siafund loop's error, if any, is dropped here as in the source
          match appliedEvents cau.state cau.block tx.addressRelevant with
          | .error f => .error f
          | .ok evs =>
            .ok { acc3 with
              events := acc3.events ++ evs,
              newSc := acc3.newSc.map (fun p =>
                (p.1, { p.2 with stateElement := cau.proofUpdate p.2.stateElement })),
              newSf := acc3.newSf.map (fun p =>
                (p.1, { p.2 with stateElement := cau.proofUpdate p.2.stateElement })),
              scState := acc3.scState.map cau.proofUpdate,
              sfState := acc3.sfState.map cau.proofUpdate }

/-- The applier's update loop. -/
def applyUpdatesLoop (tx : TxModel) : List ApplyUpdate → ApplyAcc →
    Except RunFail ApplyAcc
  | [], acc => .ok acc
  | u :: rest, acc =>
    match applyOneUpdate tx acc u with
    | .ok acc' => applyUpdatesLoop tx rest acc'
    | .error f => .error f

/-- The end-of-batch flush of `ApplyChainUpdates`: balances, add siacoin,
remove siacoin, add siafund, remove siafund, events, then the refreshed
state-element lists with the elements spent during the batch filtered out. -/
def applyFlush (acc : ApplyAcc) : List WriteOp :=
  [ .updateBalances (acc.balances.map (fun p => ⟨p.1, p.2⟩)),
    .addSiacoinElements (acc.newSc.map (·.2)),
    .removeSiacoinElements acc.spentSc,
    .addSiafundElements (acc.newSf.map (·.2)),
    .removeSiafundElements acc.spentSf,
    .addEvents acc.events,
    .updateSiacoinStateElements (acc.scState.filter (fun se => !acc.spentSc.contains se.id)),
    .updateSiafundStateElements (acc.sfState.filter (fun se => !acc.spentSf.contains se.id)) ]

/-- `ApplyChainUpdates` (`wallet/update.go`): atomically apply a batch of
chain updates, returning the ordered trace of mutating store calls. -/
def ApplyChainUpdates (tx : TxModel) (updates : List ApplyUpdate) :
    Except RunFail (List WriteOp) :=
  match tx.siacoinStateElements with
  | .error e => .error (.err ("failed to get siacoin state elements: " ++ e))
  | .ok scState =>
    match tx.siafundStateElements with
    | .error e => .error (.err ("failed to get siafund state elements: " ++ e))
    | .ok sfState =>
      match applyUpdatesLoop tx updates
        { events := [], balances := [], newSc := [], newSf := [],
          spentSc := [], spentSf := [], scState := scState, sfState := sfState } with
      | .error f => .error f
      | .ok acc => .ok (applyFlush acc)

/-! ## The reverter (`RevertChainUpdate`) -/

/-- The in-memory accumulation of `RevertChainUpdate`. -/
structure RevertAcc where
  balances : List (Addr × Balance)
  addedSc : List SiacoinElement
  deletedSc : List Hash256
  addedSf : List SiafundElement
  deletedSf : List Hash256
deriving Repr

/-- The matured-outputs phase of the reverter: move each matured output's
value from the mature back to the immature balance of its address. -/
def revertMatured (tx : TxModel) : List SiacoinElement → List (Addr × Balance) →
    Except String (List (Addr × Balance))
  | [], bs => .ok bs
  | se :: rest, bs =>
    match updBal tx bs se.siacoinOutput.address (fun b =>
      { b with immatureSiacoins := b.immatureSiacoins + se.siacoinOutput.value,
               siacoins := b.siacoins - se.siacoinOutput.value }) with
    | .ok bs' => revertMatured tx rest bs'
    | .error e => .error ("failed to update address balance: " ++ e)

/-- One iteration of the reverter's siacoin-element closure: the relevance
check comes first, then the ephemeral skip; a spent element is re-added, a
created one deleted, and the applier's balance branch is mirrored with the
signs inverted. -/
def revertScStep (tx : TxModel) (height : Nat) (eph : Hash256 → Bool)
    (acc : RevertAcc) (d : SiacoinElement × Bool) : Except String RevertAcc :=
  match tx.addressRelevant d.1.siacoinOutput.address with
  | .error e => .error ("failed to check if address is relevant: " ++ e)
  | .ok false => .ok acc
  | .ok true =>
    if eph d.1.id then .ok acc
    else
      let acc1 :=
        if d.2 then { acc with addedSc := acc.addedSc ++ [d.1] }
        else { acc with deletedSc := acc.deletedSc ++ [d.1.id] }
      match getBalance tx acc1.balances d.1.siacoinOutput.address with
      | .error e => .error e
      | .ok b =>
        let v := d.1.siacoinOutput.value
        let b' :=
          if height < d.1.maturityHeight then
            { b with immatureSiacoins := b.immatureSiacoins - v }
          else if d.2 then { b with siacoins := b.siacoins + v }
          else { b with siacoins := b.siacoins - v }
        .ok { acc1 with balances := aset acc1.balances d.1.siacoinOutput.address b' }

/-- The reverter's siacoin-element loop (`siacoinElementErr` short circuit;
the error is checked right after this loop). -/
def revertScFold (tx : TxModel) (height : Nat) (eph : Hash256 → Bool) :
    List (SiacoinElement × Bool) → RevertAcc → Except String RevertAcc
  | [], acc => .ok acc
  | d :: rest, acc =>
    match revertScStep tx height eph acc d with
    | .ok acc' => revertScFold tx height eph rest acc'
    | .error e => .error e

/-- One iteration of the reverter's siafund-element closure.  A relevance
error is assigned to the (already-checked) `siacoinElementErr` variable —
the source's cross-assignment — modelled by the third, discarded slot; only
a balance error lands in `siafundElementErr` (second slot), which freezes the
remaining iterations and is checked after the loop. -/
def revertSfStep (tx : TxModel) (eph : Hash256 → Bool)
    (st : RevertAcc × Option String × Option String) (d : SiafundElement × Bool) :
    RevertAcc × Option String × Option String :=
  match st.2.1 with
  | some e => (st.1, some e, st.2.2)
  | none =>
    match tx.addressRelevant d.1.siafundOutput.address with
    | .error e => (st.1, none, some ("failed to check if address is relevant: " ++ e))
    | .ok false => (st.1, none, st.2.2)
    | .ok true =>
      if eph d.1.id then (st.1, none, st.2.2)
      else
        let acc1 :=
          if d.2 then { st.1 with addedSf := st.1.addedSf ++ [d.1] }
          else { st.1 with deletedSf := st.1.deletedSf ++ [d.1.id] }
        match getBalance tx acc1.balances d.1.siafundOutput.address with
        | .error e => (acc1, some e, st.2.2)
        | .ok b =>
          let b' := revertSiafundBalanceFn d.2 d.1.siafundOutput.value b
          ({ acc1 with balances := aset acc1.balances d.1.siafundOutput.address b' },
           none, st.2.2)

/-- The reverter's siafund-element loop (a total function: nothing in it can
abort the revert by itself). -/
def revertSfFold (tx : TxModel) (eph : Hash256 → Bool) :
    List (SiafundElement × Bool) → RevertAcc × Option String × Option String →
    RevertAcc × Option String × Option String
  | [], st => st
  | d :: rest, st => revertSfFold tx eph rest (revertSfStep tx eph st d)

/-- `RevertChainUpdate` (`wallet/update.go`): atomically revert one chain
update, returning the ordered trace of mutating store calls.  The refreshed
state-element proofs are computed into locals and never written back, exactly
as in the source. -/
def RevertChainUpdate (tx : TxModel) (cru : RevertUpdate) :
    Except RunFail (List WriteOp) :=
  let eph := ephLookup (ephemeralMap cru.block)
  let revertedIndex : ChainIndex := ⟨cru.state.index.height + 1, cru.block.id⟩
  match tx.maturedSiacoinElements revertedIndex with
  | .error e => .error (.err ("failed to get matured siacoin elements: " ++ e))
  | .ok matured =>
    match revertMatured tx matured [] with
    | .error e => .error (.err e)
    | .ok bs1 =>
      match revertScFold tx cru.state.index.height eph cru.siacoinDiffs
          { balances := bs1, addedSc := [], deletedSc := [], addedSf := [], deletedSf := [] } with
      | .error e => .error (.err ("failed to update address balance: " ++ e))
      | .ok acc2 =>
        match revertSfFold tx eph cru.siafundDiffs (acc2, none, none) with
        | (_, some e, _) => .error (.err ("failed to update address balance: " ++ e))
        | (acc3, none, _) =>
          -- the cross-assigned siacoinElementErr (third slot) is never re-checked
          match tx.siacoinStateElements with
          | .error e => .error (.err ("failed to get siacoin state elements: " ++ e))
          | .ok scEls =>
            let _ := scEls.map cru.proofUpdate
            match tx.siafundStateElements with
            | .error e => .error (.err ("failed to get siafund state elements: " ++ e))
            | .ok sfEls =>
              let _ := sfEls.map cru.proofUpdate
              .ok [ .updateBalances (acc3.balances.map (fun p => ⟨p.1, p.2⟩)),
                    .addSiacoinElements acc3.addedSc,
                    .removeSiacoinElements acc3.deletedSc,
                    .addSiafundElements acc3.addedSf,
                    .removeSiafundElements acc3.deletedSf,
                    .revertEvents revertedIndex ]

/-! ## A store obeying the persistence contract -/

/-- Modelled from the spec: a store satisfying the `UpdateTx` contract of
§4.1 (the sqlite implementation is not under src/): tracked UTXO elements,
per-address balances, events; the tracked state elements are the same
identities as the UTXOs they authenticate. -/
structure Store where
  scElements : List SiacoinElement
  sfElements : List SiafundElement
  balances : List (Addr × Balance)
  events : List Event
deriving DecidableEq, Repr

/-- Modelled from the spec: the effect of one mutating store call (§4.1):
bulk balance overwrite, element addition/removal, event append,
`RevertEvents` deletes all events at the index, and
`UpdateSiacoinStateElements`/`UpdateSiafundStateElements` replace the proofs
of the given ids in place. -/
def Store.applyOp (s : Store) : WriteOp → Store
  | .updateBalances l => { s with balances := l.foldl (fun bs ab => aset bs ab.address ab.balance) s.balances }
  | .addSiacoinElements l => { s with scElements := s.scElements ++ l }
  | .removeSiacoinElements ids => { s with scElements := s.scElements.filter (fun e => !ids.contains e.id) }
  | .addSiafundElements l => { s with sfElements := s.sfElements ++ l }
  | .removeSiafundElements ids => { s with sfElements := s.sfElements.filter (fun e => !ids.contains e.id) }
  | .addEvents l => { s with events := s.events ++ l }
  | .updateSiacoinStateElements l =>
    { s with scElements := s.scElements.map (fun e =>
        match l.find? (fun se => se.id == e.id) with
        | some se => { e with stateElement := se }
        | none => e) }
  | .updateSiafundStateElements l =>
    { s with sfElements := s.sfElements.map (fun e =>
        match l.find? (fun se => se.id == e.id) with
        | some se => { e with stateElement := se }
        | none => e) }
  | .revertEvents i => { s with events := s.events.filter (fun ev => ev.index != i) }

/-- Fold a write trace into the store. -/
def Store.applyOps (s : Store) (ops : List WriteOp) : Store :=
  ops.foldl Store.applyOp s

/-- Modelled from the spec: the read surface a consistent store presents to a
transaction (§4.1): state elements of the tracked UTXOs, matured elements by
maturity height, relevance from the registered address set, balances with a
zero default for unknown addresses. -/
def Store.txModel (s : Store) (rel : List Addr) : TxModel where
  siacoinStateElements := .ok (s.scElements.map (·.stateElement))
  siafundStateElements := .ok (s.sfElements.map (·.stateElement))
  maturedSiacoinElements := fun i => .ok (s.scElements.filter (fun e => e.maturityHeight == i.height))
  addressRelevant := fun a => .ok (rel.contains a)
  addressBalance := fun a => .ok ((alookup s.balances a).getD zeroBalance)

/-- Run `ApplyChainUpdates` against a consistent store and commit its trace. -/
def runApply (s : Store) (rel : List Addr) (updates : List ApplyUpdate) : Option Store :=
  (ApplyChainUpdates (s.txModel rel) updates).toOption.map (s.applyOps)

/-- Run `RevertChainUpdate` against a consistent store and commit its trace. -/
def runRevert (s : Store) (rel : List Addr) (cru : RevertUpdate) : Option Store :=
  (RevertChainUpdate (s.txModel rel) cru).toOption.map (s.applyOps)

/-! ## Wallet creation (`walletsHandlerPOST`, `api/server.go`) -/

/-- `wallet.Wallet` as the spec's §3 record (metadata as an opaque string). -/
structure Wallet where
  id : Nat
  name : String
  description : String
  metadata : String
  createdAt : Nat
  updatedAt : Nat
deriving DecidableEq, Repr

/-- `api.WalletUpdateRequest`: the decoded POST /wallets body. -/
structure WalletUpdateRequest where
  name : String
  description : String
  metadata : String
deriving DecidableEq, Repr

/-- Modelled from the spec: `AddWallet(w) → w'` of the wallet manager (not
under src/): assigns the id and both timestamps; fails only on store error. -/
def addWallet (storeErr : Option String) (newId now : Nat) (w : Wallet) :
    Except String Wallet :=
  match storeErr with
  | some e => .error e
  | none => .ok { w with id := newId, createdAt := now, updatedAt := now }

/-- `walletsHandlerPOST`: the source declares `var req WalletUpdateRequest`
and never decodes the request body, so the wallet handed to `AddWallet` is
built from the zero-valued request. -/
def walletsHandlerPOST (_body : WalletUpdateRequest) (storeErr : Option String)
    (newId now : Nat) : Except String Wallet :=
  let req : WalletUpdateRequest := ⟨"", "", ""⟩
  let w : Wallet :=
    { id := 0, name := req.name, description := req.description,
      metadata := req.metadata, createdAt := 0, updatedAt := 0 }
  addWallet storeErr newId now w

/-! ## Block-local creation and spending (for the ephemerality claims) -/

/-- Does any transaction of the block (v1 or v2) create the siacoin output id? -/
def blockCreatesSc (b : Block) (h : Hash256) : Bool :=
  (b.transactions ++ b.v2Transactions).any
    (fun t => ((List.range t.siacoinOutputs.length).map t.siacoinOutputID).contains h)

/-- Does any transaction of the block (v1 or v2) spend the siacoin output id? -/
def blockSpendsSc (b : Block) (h : Hash256) : Bool :=
  (b.transactions ++ b.v2Transactions).any
    (fun t => (t.siacoinInputs.map (·.parentID)).contains h)

/-! ## Eligible totals for the funding claims -/

/-- The total value of the eligible siacoin candidates. -/
def scEligTotal (used inPool : List Hash256) (l : List SiacoinElement) : Nat :=
  ((l.filter (scEligible used inPool)).map (·.siacoinOutput.value)).sum

/-- The total value of all unspent siacoin outputs of a wallet. -/
def scTotalValue (l : List SiacoinElement) : Nat :=
  (l.map (·.siacoinOutput.value)).sum

/-- The total value of all unspent siafund outputs of a wallet. -/
def sfTotalValue (l : List SiafundElement) : Nat :=
  (l.map (·.siafundOutput.value)).sum

/-! ## Concrete instances used by the claim theorems -/

/-- C1: a store tracking one mature siacoin UTXO with a pristine proof. -/
def c1S0 : Store :=
  { scElements := [⟨⟨1, 0, []⟩, ⟨5, 1⟩, 0⟩], sfElements := [],
    balances := [(1, ⟨5, 0, 0⟩)], events := [] }

/-- C1: the registered addresses. -/
def c1rel : List Addr := [1]

/-- C1: an apply update for an empty block whose proof refresh bumps every
leaf index. -/
def c1cau : ApplyUpdate :=
  { state := ⟨⟨1, 10⟩⟩, block := ⟨10, [], []⟩, siacoinDiffs := [], siafundDiffs := [],
    proofUpdate := fun se => { se with leafIndex := se.leafIndex + 1 } }

/-- C1: the corresponding revert update, whose proof refresh is the exact
inverse of the apply's. -/
def c1cru : RevertUpdate :=
  { state := ⟨⟨0, 0⟩⟩, block := ⟨10, [], []⟩, siacoinDiffs := [], siafundDiffs := [],
    proofUpdate := fun se => { se with leafIndex := se.leafIndex - 1 } }

/-- C1: the store after the apply — the tracked proof was refreshed. -/
def c1S1 : Store :=
  { scElements := [⟨⟨1, 1, []⟩, ⟨5, 1⟩, 0⟩], sfElements := [],
    balances := [(1, ⟨5, 0, 0⟩)], events := [] }

/-- C2: a transaction view with one relevant address of zero balance. -/
def c2tx : TxModel :=
  { siacoinStateElements := .ok [], siafundStateElements := .ok [],
    maturedSiacoinElements := fun _ => .ok [],
    addressRelevant := fun _ => .ok true,
    addressBalance := fun _ => .ok zeroBalance }

/-- C2: a revert update deleting a created siafund output of value 1 held by
an address whose siafund balance is 0. -/
def c2cru : RevertUpdate :=
  { state := ⟨⟨0, 0⟩⟩, block := ⟨9, [], []⟩, siacoinDiffs := [],
    siafundDiffs := [(⟨⟨2, 0, []⟩, ⟨1, 1⟩, 0⟩, false)],
    proofUpdate := fun se => se }

/-- C3: a transaction view whose `AddressRelevant` always fails. -/
def c3tx : TxModel :=
  { siacoinStateElements := .ok [], siafundStateElements := .ok [],
    maturedSiacoinElements := fun _ => .ok [],
    addressRelevant := fun _ => .error "boom",
    addressBalance := fun _ => .ok zeroBalance }

/-- C3: an apply update whose only element diff is an unspent siafund
element, so the only store error happens inside the siafund loop. -/
def c3cau : ApplyUpdate :=
  { state := ⟨⟨1, 11⟩⟩, block := ⟨11, [], []⟩, siacoinDiffs := [],
    siafundDiffs := [(⟨⟨3, 0, []⟩, ⟨1, 7⟩, 0⟩, false)],
    proofUpdate := fun se => se }

/-- C3: the matching revert update. -/
def c3cru : RevertUpdate :=
  { state := ⟨⟨0, 0⟩⟩, block := ⟨11, [], []⟩, siacoinDiffs := [],
    siafundDiffs := [(⟨⟨3, 0, []⟩, ⟨1, 7⟩, 0⟩, false)],
    proofUpdate := fun se => se }

/-- C6: the id of the v2 transaction's first siacoin output. -/
def c6id : Hash256 := hashPair 8 0

/-- C6: a v2 transaction that creates its own input's parent — an output
created and spent inside the same block. -/
def c6v2txn : Transaction := ⟨4, [⟨c6id⟩], [⟨5, 3⟩], [], []⟩

/-- C6: a block whose only activity is the v2 transaction. -/
def c6block : Block := ⟨99, [], [c6v2txn]⟩

/-- C6: a transaction view where address 3 is relevant with balance 10. -/
def c6tx : TxModel :=
  { siacoinStateElements := .ok [], siafundStateElements := .ok [],
    maturedSiacoinElements := fun _ => .ok [],
    addressRelevant := fun a => .ok (a == 3),
    addressBalance := fun _ => .ok ⟨10, 0, 0⟩ }

/-- C6: the apply update for the block, whose siacoin diff carries the
block-local (ephemeral) element as spent. -/
def c6cau : ApplyUpdate :=
  { state := ⟨⟨5, 99⟩⟩, block := c6block,
    siacoinDiffs := [(⟨⟨c6id, 0, []⟩, ⟨5, 3⟩, 0⟩, true)], siafundDiffs := [],
    proofUpdate := fun se => se }

/-- C7/C9/C10 helper: an empty transaction. -/
def txn0 : Transaction := ⟨0, [], [], [], []⟩

/-- C7: a transaction view over an empty consistent store. -/
def c7tx : TxModel :=
  { siacoinStateElements := .ok [], siafundStateElements := .ok [],
    maturedSiacoinElements := fun _ => .ok [],
    addressRelevant := fun _ => .ok false,
    addressBalance := fun _ => .ok zeroBalance }

/-- C9: a wallet holding 1001 siacoin outputs of value 1 each. -/
def c9scOutputs : List SiacoinElement :=
  (List.range 1001).map (fun i => ⟨⟨i, 0, []⟩, ⟨1, 2⟩, 0⟩)

/-- C9: a wallet holding 1001 siafund outputs of value 1 each. -/
def c9sfOutputs : List SiafundElement :=
  (List.range 1001).map (fun i => ⟨⟨i, 0, []⟩, ⟨1, 2⟩, 0⟩)

/-- C6 witness: a v1 transaction spending its own siacoin and siafund
outputs (both ephemeral). -/
def c6wtxn : Transaction :=
  ⟨7, [⟨hashPair 14 0⟩], [⟨1, 4⟩], [⟨hashPair 15 0, 0⟩], [⟨1, 4⟩]⟩

/-- C6 witness: a block whose only transaction is the self-spending one. -/
def c6wblock : Block := ⟨50, [c6wtxn], []⟩

/-- C6 witness: the siacoin diff carrying the ephemeral element. -/
def c6wscDiffs : List (SiacoinElement × Bool) :=
  [(⟨⟨hashPair 14 0, 0, []⟩, ⟨1, 4⟩, 0⟩, true)]

/-- C6 witness: the siafund diff carrying the ephemeral element. -/
def c6wsfDiffs : List (SiafundElement × Bool) :=
  [(⟨⟨hashPair 15 0, 0, []⟩, ⟨1, 4⟩, 0⟩, true)]

/-- C6 witness: an empty applier accumulator. -/
def c6wacc : ApplyAcc := ⟨[], [], [], [], [], [], [], []⟩

/-- C6 witness: an empty reverter accumulator. -/
def c6wracc : RevertAcc := ⟨[], [], [], [], []⟩

/-- C4 witness input: one mature UTXO of value 5. -/
def c4utxos : List SiacoinElement := [⟨⟨1, 0, []⟩, ⟨5, 2⟩, 0⟩]

/-- C5 witness input: two UTXOs of value 5 each. -/
def c5utxos : List SiacoinElement := [⟨⟨1, 0, []⟩, ⟨5, 2⟩, 0⟩, ⟨⟨2, 0, []⟩, ⟨5, 2⟩, 0⟩]

/-- C5 witness input: two siafund UTXOs of value 5 each. -/
def c5sfUtxos : List SiafundElement := [⟨⟨1, 0, []⟩, ⟨5, 2⟩, 0⟩, ⟨⟨2, 0, []⟩, ⟨5, 2⟩, 0⟩]

/-! ## Helper lemmas about the funding engine -/

theorem not_mem_of_contains_eq_false {a : Nat} {l : List Nat}
    (h : l.contains a = false) : a ∉ l := by
  intro hm
  have ht : l.contains a = true := List.elem_iff.mpr hm
  rw [h] at ht
  exact Bool.noConfusion ht

theorem scEligible_spec {used inPool : List Hash256} {e : SiacoinElement}
    (h : scEligible used inPool e = true) : e.id ∉ used ∧ e.id ∉ inPool := by
  unfold scEligible at h
  rw [Bool.not_eq_true', Bool.or_eq_false_iff] at h
  exact ⟨not_mem_of_contains_eq_false h.1, not_mem_of_contains_eq_false h.2⟩

theorem sfEligible_spec {used inPool : List Hash256} {e : SiafundElement}
    (h : sfEligible used inPool e = true) : e.id ∉ used ∧ e.id ∉ inPool := by
  unfold sfEligible at h
  rw [Bool.not_eq_true', Bool.or_eq_false_iff] at h
  exact ⟨not_mem_of_contains_eq_false h.1, not_mem_of_contains_eq_false h.2⟩

theorem scEligTotal_cons_pos {used inPool : List Hash256} {e : SiacoinElement}
    (l : List SiacoinElement) (h : scEligible used inPool e = true) :
    scEligTotal used inPool (e :: l) =
      e.siacoinOutput.value + scEligTotal used inPool l := by
  simp [scEligTotal, List.filter_cons, h]

theorem scEligTotal_cons_neg {used inPool : List Hash256} {e : SiacoinElement}
    (l : List SiacoinElement) (h : ¬scEligible used inPool e = true) :
    scEligTotal used inPool (e :: l) = scEligTotal used inPool l := by
  simp only [Bool.not_eq_true] at h
  simp [scEligTotal, List.filter_cons, h]

/-- The greedy loop reaches `amount` exactly when the eligible candidates it
scans total at least `amount` (on top of the running sum). -/
theorem scFundLoop_reaches (amount : Nat) (used inPool : List Hash256) :
    ∀ (l acc' : List SiacoinElement) (sum : Nat),
      amount ≤ (scFundLoop amount used inPool l acc' sum).2 ↔
        amount ≤ sum + scEligTotal used inPool l := by
  intro l
  induction l with
  | nil => intro acc' sum; simp [scFundLoop, scEligTotal]
  | cons e rest ih =>
    intro acc' sum
    by_cases he : scEligible used inPool e = true
    · rw [scFundLoop, if_pos he]
      by_cases h2 : amount ≤ sum + e.siacoinOutput.value
      · rw [if_pos h2]
        rw [scEligTotal_cons_pos rest he]
        constructor
        · intro _; omega
        · intro _; exact h2
      · rw [if_neg h2, ih, scEligTotal_cons_pos rest he]
        omega
    · rw [scFundLoop, if_neg he, ih, scEligTotal_cons_neg rest he]

/-- Every element the greedy loop selects was in the starting accumulator or
is eligible. -/
theorem scFundLoop_sel (amount : Nat) (used inPool : List Hash256) :
    ∀ (l acc' : List SiacoinElement) (sum : Nat) (e : SiacoinElement),
      e ∈ (scFundLoop amount used inPool l acc' sum).1 →
        e ∈ acc' ∨ scEligible used inPool e = true := by
  intro l
  induction l with
  | nil => intro acc' sum e h; exact .inl h
  | cons x rest ih =>
    intro acc' sum e h
    by_cases hx : scEligible used inPool x = true
    · rw [scFundLoop, if_pos hx] at h
      by_cases h2 : amount ≤ sum + x.siacoinOutput.value
      · rw [if_pos h2] at h
        rcases List.mem_append.mp h with h' | h'
        · exact .inl h'
        · rcases List.mem_singleton.mp h' with rfl
          exact .inr hx
      · rw [if_neg h2] at h
        rcases ih _ _ e h with h' | h'
        · rcases List.mem_append.mp h' with h'' | h''
          · exact .inl h''
          · rcases List.mem_singleton.mp h'' with rfl
            exact .inr hx
        · exact .inr h'
    · rw [scFundLoop, if_neg hx] at h
      exact ih _ _ e h

/-- Every element the siafund greedy loop selects was in the starting
accumulator or is eligible. -/
theorem sfFundLoop_sel (amount : Nat) (used inPool : List Hash256) :
    ∀ (l acc' : List SiafundElement) (sum : Nat) (e : SiafundElement),
      e ∈ (sfFundLoop amount used inPool l acc' sum).1 →
        e ∈ acc' ∨ sfEligible used inPool e = true := by
  intro l
  induction l with
  | nil => intro acc' sum e h; exact .inl h
  | cons x rest ih =>
    intro acc' sum e h
    by_cases hx : sfEligible used inPool x = true
    · rw [sfFundLoop, if_pos hx] at h
      by_cases h2 : amount ≤ u64add sum x.siafundOutput.value
      · rw [if_pos h2] at h
        rcases List.mem_append.mp h with h' | h'
        · exact .inl h'
        · rcases List.mem_singleton.mp h' with rfl
          exact .inr hx
      · rw [if_neg h2] at h
        rcases ih _ _ e h with h' | h'
        · rcases List.mem_append.mp h' with h'' | h''
          · exact .inl h''
          · rcases List.mem_singleton.mp h'' with rfl
            exact .inr hx
        · exact .inr h'
    · rw [sfFundLoop, if_neg hx] at h
      exact ih _ _ e h

/-- When every candidate value is 1 and no u64 wrap can occur, the siafund
loop's final sum is bounded by the running sum plus the candidate count. -/
theorem sfFundLoop_sum_le (amount : Nat) (used inPool : List Hash256) :
    ∀ (l acc' : List SiafundElement) (sum : Nat),
      (∀ x ∈ l, x.siafundOutput.value = 1) → sum + l.length < U64 →
      (sfFundLoop amount used inPool l acc' sum).2 ≤ sum + l.length := by
  intro l
  induction l with
  | nil => intro acc' sum _ _; simp [sfFundLoop]
  | cons x rest ih =>
    intro acc' sum hv hlt
    have hx1 : x.siafundOutput.value = 1 := hv x (List.mem_cons_self x rest)
    by_cases hx : sfEligible used inPool x = true
    · rw [sfFundLoop, if_pos hx]
      have hadd : u64add sum x.siafundOutput.value = sum + 1 := by
        rw [hx1]
        unfold u64add
        exact Nat.mod_eq_of_lt (by simp at hlt; omega)
      by_cases h2 : amount ≤ u64add sum x.siafundOutput.value
      · rw [if_pos h2]
        simp only [hadd, List.length_cons]
        omega
      · rw [if_neg h2, hadd]
        have := ih (acc' ++ [x]) (sum + 1)
          (fun y hy => hv y (List.mem_cons_of_mem x hy))
          (by simp at hlt ⊢; omega)
        simp only [List.length_cons]
        omega
    · rw [sfFundLoop, if_neg hx]
      have := ih acc' sum (fun y hy => hv y (List.mem_cons_of_mem x hy))
        (by simp at hlt ⊢; omega)
      simp only [List.length_cons]
      omega

/-- Eligible totals are invariant under permutation (the shuffle). -/
theorem scEligTotal_perm {used inPool : List Hash256}
    {l₁ l₂ : List SiacoinElement} (h : l₁.Perm l₂) :
    scEligTotal used inPool l₁ = scEligTotal used inPool l₂ := by
  unfold scEligTotal
  exact ((h.filter (scEligible used inPool)).map (·.siacoinOutput.value)).sum_eq

/-- A list whose values are all 1 sums to its length. -/
theorem sum_map_one {α : Type} (f : α → Nat) :
    ∀ (l : List α), (∀ x ∈ l, f x = 1) → (l.map f).sum = l.length := by
  intro l
  induction l with
  | nil => intro _; rfl
  | cons x rest ih =>
    intro h
    simp only [List.map_cons, List.sum_cons, List.length_cons,
      h x (List.mem_cons_self x rest), ih (fun y hy => h y (List.mem_cons_of_mem x hy))]
    omega

/-- What a successful siacoin funding call produced: either the amount was
zero and nothing happened, or `toSign` is the selection's ids, each id was
reserved, and one input per id was appended. -/
theorem scFundTxn_ok {σ : List SiacoinElement → List SiacoinElement}
    {txn : Transaction} {amount : Nat} {utxos : List SiacoinElement}
    {changeAddr : Addr} {used : List Hash256} {pool : List Transaction}
    {txn' : Transaction} {ts us : List Hash256}
    (h : scFundTxn σ txn amount utxos changeAddr used pool = .ok (txn', ts, us)) :
    (txn' = txn ∧ ts = [] ∧ us = used) ∨
    (ts = (scSelected σ amount utxos used pool).1.map SiacoinElement.id ∧
     us = ts ++ used ∧
     txn'.siacoinInputs = txn.siacoinInputs ++
       (scSelected σ amount utxos used pool).1.map (fun e => ⟨e.id⟩)) := by
  unfold scFundTxn at h
  by_cases h0 : amount = 0
  · rw [if_pos h0] at h
    injection h with h
    injection h with h1 h
    injection h with h2 h3
    exact .inl ⟨h1.symm, h2.symm, h3.symm⟩
  · rw [if_neg h0] at h
    by_cases hins : (scSelected σ amount utxos used pool).2 < amount
    · rw [if_pos hins] at h; exact absurd h (by simp)
    · rw [if_neg hins] at h
      by_cases hgt : amount < (scSelected σ amount utxos used pool).2
      · rw [if_pos hgt] at h
        by_cases hvoid : changeAddr = voidAddress
        · rw [if_pos hvoid] at h; exact absurd h (by simp)
        · rw [if_neg hvoid] at h
          injection h with h
          injection h with h1 h
          injection h with h2 h3
          exact .inr ⟨h2.symm, by rw [← h2, ← h3], by rw [← h1]⟩
      · rw [if_neg hgt] at h
        injection h with h
        injection h with h1 h
        injection h with h2 h3
        exact .inr ⟨h2.symm, by rw [← h2, ← h3], by rw [← h1]⟩

/-- What a successful siafund funding call produced. -/
theorem sfFundTxn_ok {σ : List SiafundElement → List SiafundElement}
    {txn : Transaction} {amount : Nat} {utxos : List SiafundElement}
    {changeAddr claimAddr : Addr} {used : List Hash256} {pool : List Transaction}
    {txn' : Transaction} {ts us : List Hash256}
    (h : sfFundTxn σ txn amount utxos changeAddr claimAddr used pool = .ok (txn', ts, us)) :
    (txn' = txn ∧ ts = [] ∧ us = used) ∨
    (ts = (sfSelected σ amount utxos used pool).1.map SiafundElement.id ∧
     us = ts ++ used ∧
     txn'.siafundInputs = txn.siafundInputs ++
       (sfSelected σ amount utxos used pool).1.map (fun e => ⟨e.id, claimAddr⟩)) := by
  unfold sfFundTxn at h
  by_cases h0 : amount = 0
  · rw [if_pos h0] at h
    injection h with h
    injection h with h1 h
    injection h with h2 h3
    exact .inl ⟨h1.symm, h2.symm, h3.symm⟩
  · rw [if_neg h0] at h
    by_cases hins : (sfSelected σ amount utxos used pool).2 < amount
    · rw [if_pos hins] at h; exact absurd h (by simp)
    · rw [if_neg hins] at h
      by_cases hgt : amount < (sfSelected σ amount utxos used pool).2
      · rw [if_pos hgt] at h
        by_cases hvoid : changeAddr = voidAddress
        · rw [if_pos hvoid] at h; exact absurd h (by simp)
        · rw [if_neg hvoid] at h
          injection h with h
          injection h with h1 h
          injection h with h2 h3
          exact .inr ⟨h2.symm, by rw [← h2, ← h3], by rw [← h1]⟩
      · rw [if_neg hgt] at h
        injection h with h
        injection h with h1 h
        injection h with h2 h3
        exact .inr ⟨h2.symm, by rw [← h2, ← h3], by rw [← h1]⟩

/-- No id a successful siacoin funding call returns was reserved at call start. -/
theorem scFundTxn_toSign_not_used {σ txn amount utxos changeAddr used pool txn' ts us}
    (h : scFundTxn σ txn amount utxos changeAddr used pool = .ok (txn', ts, us)) :
    ∀ i ∈ ts, i ∉ used := by
  rcases scFundTxn_ok h with ⟨_, rfl, _⟩ | ⟨hts, _, _⟩
  · intro i hi; exact absurd hi (List.not_mem_nil i)
  · intro i hi
    rw [hts] at hi
    rcases List.mem_map.mp hi with ⟨e, he, rfl⟩
    unfold scSelected at he
    rcases scFundLoop_sel amount used (scInPool pool) (σ utxos) [] 0 e he with h' | h'
    · exact absurd h' (List.not_mem_nil e)
    · exact (scEligible_spec h').1

/-- Every id a successful siacoin funding call returns is in the updated
reservation set. -/
theorem scFundTxn_toSign_reserved {σ txn amount utxos changeAddr used pool txn' ts us}
    (h : scFundTxn σ txn amount utxos changeAddr used pool = .ok (txn', ts, us)) :
    ∀ i ∈ ts, i ∈ us := by
  rcases scFundTxn_ok h with ⟨_, rfl, _⟩ | ⟨_, hus, _⟩
  · intro i hi; exact absurd hi (List.not_mem_nil i)
  · intro i hi; rw [hus]; exact List.mem_append_left _ hi

/-- A successful siacoin funding call appends exactly one input per `toSign` id. -/
theorem scFundTxn_inputs {σ txn amount utxos changeAddr used pool txn' ts us}
    (h : scFundTxn σ txn amount utxos changeAddr used pool = .ok (txn', ts, us)) :
    txn'.siacoinInputs = txn.siacoinInputs ++ ts.map SiacoinInput.mk := by
  rcases scFundTxn_ok h with ⟨rfl, rfl, _⟩ | ⟨hts, _, hinp⟩
  · simp
  · rw [hinp, hts, List.map_map]
    rfl

/-- No id a successful siafund funding call returns was reserved at call start. -/
theorem sfFundTxn_toSign_not_used {σ txn amount utxos changeAddr claimAddr used pool txn' ts us}
    (h : sfFundTxn σ txn amount utxos changeAddr claimAddr used pool = .ok (txn', ts, us)) :
    ∀ i ∈ ts, i ∉ used := by
  rcases sfFundTxn_ok h with ⟨_, rfl, _⟩ | ⟨hts, _, _⟩
  · intro i hi; exact absurd hi (List.not_mem_nil i)
  · intro i hi
    rw [hts] at hi
    rcases List.mem_map.mp hi with ⟨e, he, rfl⟩
    unfold sfSelected at he
    rcases sfFundLoop_sel amount used (sfInPool pool) (σ utxos) [] 0 e he with h' | h'
    · exact absurd h' (List.not_mem_nil e)
    · exact (sfEligible_spec h').1

/-- Every id a successful siafund funding call returns is in the updated
reservation set. -/
theorem sfFundTxn_toSign_reserved {σ txn amount utxos changeAddr claimAddr used pool txn' ts us}
    (h : sfFundTxn σ txn amount utxos changeAddr claimAddr used pool = .ok (txn', ts, us)) :
    ∀ i ∈ ts, i ∈ us := by
  rcases sfFundTxn_ok h with ⟨_, rfl, _⟩ | ⟨_, hus, _⟩
  · intro i hi; exact absurd hi (List.not_mem_nil i)
  · intro i hi; rw [hus]; exact List.mem_append_left _ hi

/-- A successful siafund funding call appends exactly one claim-stamped input
per `toSign` id. -/
theorem sfFundTxn_inputs {σ txn amount utxos changeAddr claimAddr used pool txn' ts us}
    (h : sfFundTxn σ txn amount utxos changeAddr claimAddr used pool = .ok (txn', ts, us)) :
    txn'.siafundInputs = txn.siafundInputs ++ ts.map (fun i => ⟨i, claimAddr⟩) := by
  rcases sfFundTxn_ok h with ⟨rfl, rfl, _⟩ | ⟨hts, _, hinp⟩
  · simp
  · rw [hinp, hts, List.map_map]
    rfl

/-! ## Helper lemmas about ephemeral skipping -/

theorem applyScFold_cons (tx : TxModel) (height : Nat) (eph : Hash256 → Bool)
    (d : SiacoinElement × Bool) (rest : List (SiacoinElement × Bool)) (acc : ApplyAcc) :
    applyScFold tx height eph (d :: rest) acc =
      match applyScStep tx height eph acc d with
      | .ok acc' => applyScFold tx height eph rest acc'
      | .error e => .error e := rfl

theorem applyScStep_eph {tx : TxModel} {height : Nat} {eph : Hash256 → Bool}
    {acc : ApplyAcc} {d : SiacoinElement × Bool} (he : eph d.1.id = true) :
    applyScStep tx height eph acc d = .ok acc := by
  simp [applyScStep, he]

theorem applyScFold_filter_eph (tx : TxModel) (height : Nat) (eph : Hash256 → Bool) :
    ∀ (diffs : List (SiacoinElement × Bool)) (acc : ApplyAcc),
      applyScFold tx height eph diffs acc =
        applyScFold tx height eph (diffs.filter (fun d => !eph d.1.id)) acc := by
  intro diffs
  induction diffs with
  | nil => intro acc; rfl
  | cons d rest ih =>
    intro acc
    by_cases he : eph d.1.id = true
    · simp only [List.filter_cons, he, Bool.not_true, Bool.false_eq_true, if_false]
      rw [applyScFold_cons, applyScStep_eph he]
      exact ih acc
    · have hf : eph d.1.id = false := Bool.not_eq_true _ ▸ Bool.of_not_eq_true he
      simp only [List.filter_cons, hf, Bool.not_false, if_true]
      rw [applyScFold_cons, applyScFold_cons]
      cases happly : applyScStep tx height eph acc d with
      | ok acc' => exact ih acc'
      | error e => rfl

theorem applySfFold_cons (tx : TxModel) (eph : Hash256 → Bool)
    (d : SiafundElement × Bool) (rest : List (SiafundElement × Bool))
    (st : ApplyAcc × Option String) :
    applySfFold tx eph (d :: rest) st =
      match applySfStep tx eph st d with
      | .ok st' => applySfFold tx eph rest st'
      | .error f => .error f := rfl

theorem applySfStep_eph {tx : TxModel} {eph : Hash256 → Bool}
    {acc : ApplyAcc} {e? : Option String} {d : SiafundElement × Bool}
    (he : eph d.1.id = true) :
    applySfStep tx eph (acc, e?) d = .ok (acc, e?) := by
  cases e? with
  | none => simp [applySfStep, he]
  | some e => rfl

theorem applySfFold_filter_eph (tx : TxModel) (eph : Hash256 → Bool) :
    ∀ (diffs : List (SiafundElement × Bool)) (acc : ApplyAcc) (e? : Option String),
      applySfFold tx eph diffs (acc, e?) =
        applySfFold tx eph (diffs.filter (fun d => !eph d.1.id)) (acc, e?) := by
  intro diffs
  induction diffs with
  | nil => intro acc e?; rfl
  | cons d rest ih =>
    intro acc e?
    by_cases he : eph d.1.id = true
    · simp only [List.filter_cons, he, Bool.not_true, Bool.false_eq_true, if_false]
      rw [applySfFold_cons, applySfStep_eph he]
      exact ih acc e?
    · have hf : eph d.1.id = false := Bool.not_eq_true _ ▸ Bool.of_not_eq_true he
      simp only [List.filter_cons, hf, Bool.not_false, if_true]
      rw [applySfFold_cons, applySfFold_cons]
      cases happly : applySfStep tx eph (acc, e?) d with
      | ok st' =>
        obtain ⟨acc', e''⟩ := st'
        exact ih acc' e''
      | error f => rfl

theorem revertScFold_cons (tx : TxModel) (height : Nat) (eph : Hash256 → Bool)
    (d : SiacoinElement × Bool) (rest : List (SiacoinElement × Bool)) (acc : RevertAcc) :
    revertScFold tx height eph (d :: rest) acc =
      match revertScStep tx height eph acc d with
      | .ok acc' => revertScFold tx height eph rest acc'
      | .error e => .error e := rfl

theorem revertScStep_eph {tx : TxModel} {height : Nat} {eph : Hash256 → Bool}
    {acc : RevertAcc} {d : SiacoinElement × Bool} {bv : Bool}
    (hb : tx.addressRelevant d.1.siacoinOutput.address = .ok bv)
    (he : eph d.1.id = true) :
    revertScStep tx height eph acc d = .ok acc := by
  unfold revertScStep
  rw [hb]
  cases bv with
  | false => rfl
  | true => simp [he]

theorem revertScFold_filter_eph (tx : TxModel) (height : Nat) (eph : Hash256 → Bool) :
    ∀ (diffs : List (SiacoinElement × Bool)) (acc : RevertAcc),
      (∀ d ∈ diffs, eph d.1.id = true →
        ∃ bv, tx.addressRelevant d.1.siacoinOutput.address = .ok bv) →
      revertScFold tx height eph diffs acc =
        revertScFold tx height eph (diffs.filter (fun d => !eph d.1.id)) acc := by
  intro diffs
  induction diffs with
  | nil => intro acc _; rfl
  | cons d rest ih =>
    intro acc hrel
    by_cases he : eph d.1.id = true
    · obtain ⟨bv, hb⟩ := hrel d (List.mem_cons_self d rest) he
      simp only [List.filter_cons, he, Bool.not_true, Bool.false_eq_true, if_false]
      rw [revertScFold_cons, revertScStep_eph hb he]
      exact ih acc (fun x hx => hrel x (List.mem_cons_of_mem d hx))
    · have hf : eph d.1.id = false := Bool.not_eq_true _ ▸ Bool.of_not_eq_true he
      simp only [List.filter_cons, hf, Bool.not_false, if_true]
      rw [revertScFold_cons, revertScFold_cons]
      cases happly : revertScStep tx height eph acc d with
      | ok acc' => exact ih acc' (fun x hx => hrel x (List.mem_cons_of_mem d hx))
      | error e => rfl

theorem revertSfFold_cons (tx : TxModel) (eph : Hash256 → Bool)
    (d : SiafundElement × Bool) (rest : List (SiafundElement × Bool))
    (st : RevertAcc × Option String × Option String) :
    revertSfFold tx eph (d :: rest) st =
      revertSfFold tx eph rest (revertSfStep tx eph st d) := rfl

theorem revertSfStep_eph {tx : TxModel} {eph : Hash256 → Bool}
    {acc : RevertAcc} {e? t? : Option String} {d : SiafundElement × Bool} {bv : Bool}
    (hb : tx.addressRelevant d.1.siafundOutput.address = .ok bv)
    (he : eph d.1.id = true) :
    revertSfStep tx eph (acc, e?, t?) d = (acc, e?, t?) := by
  cases e? with
  | some e => rfl
  | none =>
    unfold revertSfStep
    rw [hb]
    cases bv with
    | false => rfl
    | true => simp [he]

theorem revertSfFold_filter_eph (tx : TxModel) (eph : Hash256 → Bool) :
    ∀ (diffs : List (SiafundElement × Bool)) (st : RevertAcc × Option String × Option String),
      (∀ d ∈ diffs, eph d.1.id = true →
        ∃ bv, tx.addressRelevant d.1.siafundOutput.address = .ok bv) →
      revertSfFold tx eph diffs st =
        revertSfFold tx eph (diffs.filter (fun d => !eph d.1.id)) st := by
  intro diffs
  induction diffs with
  | nil => intro st _; rfl
  | cons d rest ih =>
    intro st hrel
    by_cases he : eph d.1.id = true
    · obtain ⟨bv, hb⟩ := hrel d (List.mem_cons_self d rest) he
      obtain ⟨acc, e?, t?⟩ := st
      simp only [List.filter_cons, he, Bool.not_true, Bool.false_eq_true, if_false]
      rw [revertSfFold_cons, revertSfStep_eph hb he]
      exact ih (acc, e?, t?) (fun x hx => hrel x (List.mem_cons_of_mem d hx))
    · have hf : eph d.1.id = false := Bool.not_eq_true _ ▸ Bool.of_not_eq_true he
      simp only [List.filter_cons, hf, Bool.not_false, if_true]
      rw [revertSfFold_cons, revertSfFold_cons]
      exact ih _ (fun x hx => hrel x (List.mem_cons_of_mem d hx))

/-! ## Claim theorems -/

/-- C1: the claim that `Apply(b); Revert(b)` restores the store bitwise —
balances, UTXO sets, events and state-element proofs — fails on the code:
`RevertChainUpdate` computes refreshed proofs into a local and never issues a
state-element write-back, so after an apply/revert round trip of an empty
block the tracked proof keeps its post-apply value (`c1S1`, leaf index 1)
instead of returning to its pre-apply value (`c1S0`, leaf index 0). -/
theorem c1_revert_does_not_restore_proofs :
    runApply c1S0 c1rel [c1cau] = some c1S1
    ∧ RevertChainUpdate (c1S1.txModel c1rel) c1cru =
        .ok [ .updateBalances [], .addSiacoinElements [], .removeSiacoinElements [],
              .addSiafundElements [], .removeSiafundElements [], .revertEvents ⟨1, 10⟩ ]
    ∧ runRevert c1S1 c1rel c1cru = some c1S1
    ∧ c1S1 ≠ c1S0 :=
  ⟨rfl, rfl, rfl, by decide⟩

/-- C2 counterexample: reverting a created siafund output of value 1 held by
an address with siafund balance 0 does not panic — `RevertChainUpdate`
returns successfully with the balance wrapped around to `2^64 - 1`. -/
theorem c2_counterexample :
    RevertChainUpdate c2tx c2cru =
      .ok [ .updateBalances [⟨1, ⟨0, 0, 18446744073709551615⟩⟩],
            .addSiacoinElements [], .removeSiacoinElements [],
            .addSiafundElements [], .removeSiafundElements [2],
            .revertEvents ⟨1, 9⟩ ] :=
  rfl

/-- C2 (amended): in `ApplyChainUpdates` every siafund decrement below zero
raises the invariant-violation panic and a covered decrement is exact, but in
`RevertChainUpdate` the siafund decrement is unchecked u64 arithmetic that
wraps below zero instead of panicking. -/
theorem c2_siafund_underflow_guard :
    (∀ v b, b.siafunds < v →
        applySiafundBalanceFn true v b = .error (.fatal "negative siafund balance"))
    ∧ (∀ v b, v ≤ b.siafunds →
        applySiafundBalanceFn true v b = .ok { b with siafunds := b.siafunds - v })
    ∧ (∀ v b, b.siafunds < v → v < U64 →
        revertSiafundBalanceFn false v b = { b with siafunds := b.siafunds + (U64 - v) }) := by
  refine ⟨fun v b h => ?_, fun v b h => ?_, fun v b h1 h2 => ?_⟩
  · simp [applySiafundBalanceFn, h]
  · simp [applySiafundBalanceFn, Nat.not_lt.mpr h]
  · simp only [revertSiafundBalanceFn, if_neg (by simp : ¬(false = true)), u64sub]
    rw [Nat.mod_eq_of_lt h2, Nat.mod_eq_of_lt (by omega)]

/-- C2 witness: the amended theorem at value 1 against a zero balance. -/
theorem c2_siafund_underflow_guard_witness :
    applySiafundBalanceFn true 1 zeroBalance = .error (.fatal "negative siafund balance")
    ∧ revertSiafundBalanceFn false 1 zeroBalance =
        { zeroBalance with siafunds := zeroBalance.siafunds + (U64 - 1) } :=
  ⟨c2_siafund_underflow_guard.1 1 zeroBalance (by decide),
   c2_siafund_underflow_guard.2.2 1 zeroBalance (by decide) (by decide)⟩

/-- C3: a store error inside the siafund element loop is swallowed, not
propagated: with a transaction view whose `AddressRelevant` always fails and
an update whose only diff is a siafund element, both `ApplyChainUpdates`
(which never checks `siafundElementErr` after its loop) and
`RevertChainUpdate` (which assigns the error to the already-checked
`siacoinElementErr`) return success. -/
theorem c3_siafund_errors_swallowed :
    ApplyChainUpdates c3tx [c3cau] =
      .ok [ .updateBalances [], .addSiacoinElements [], .removeSiacoinElements [],
            .addSiafundElements [], .removeSiafundElements [], .addEvents [],
            .updateSiacoinStateElements [], .updateSiafundStateElements [] ]
    ∧ RevertChainUpdate c3tx c3cru =
      .ok [ .updateBalances [], .addSiacoinElements [], .removeSiacoinElements [],
            .addSiafundElements [], .removeSiafundElements [], .revertEvents ⟨1, 11⟩ ] :=
  ⟨rfl, rfl⟩

/-- C6 counterexample: an output created and spent inside the same block by a
v2 transaction is not detected as ephemeral (the walk covers only v1
transactions), so `ApplyChainUpdates` issues a store element removal for it
and changes its address's balance — contradicting the claim that such
outputs never touch the store. -/
theorem c6_counterexample :
    blockCreatesSc c6block c6id = true
    ∧ blockSpendsSc c6block c6id = true
    ∧ ApplyChainUpdates c6tx [c6cau] =
      .ok [ .updateBalances [⟨3, ⟨5, 0, 0⟩⟩], .addSiacoinElements [],
            .removeSiacoinElements [c6id], .addSiafundElements [],
            .removeSiafundElements [], .addEvents [⟨⟨5, 99⟩, [3]⟩],
            .updateSiacoinStateElements [], .updateSiafundStateElements [] ] :=
  ⟨rfl, rfl, rfl⟩

/-- C8: POST /wallets builds the wallet from a fresh zero-valued request —
the handler's result is independent of the request body, the wallet handed
to `AddWallet` has empty name, description and metadata, `AddWallet` assigns
the id and both timestamps, and the call fails exactly on a store error. -/
theorem c8_wallet_creation (body : WalletUpdateRequest) (storeErr : Option String)
    (newId now : Nat) :
    walletsHandlerPOST body storeErr newId now =
      walletsHandlerPOST ⟨"", "", ""⟩ storeErr newId now
    ∧ (storeErr = none →
        walletsHandlerPOST body storeErr newId now = .ok ⟨newId, "", "", "", now, now⟩)
    ∧ (∀ msg, storeErr = some msg →
        walletsHandlerPOST body storeErr newId now = .error msg) := by
  refine ⟨rfl, fun h => ?_, fun msg h => ?_⟩
  · subst h; rfl
  · subst h; rfl

/-- C8 witness: at a non-empty request body, a fresh id 7 and time 42. -/
theorem c8_wallet_creation_witness :
    walletsHandlerPOST ⟨"alice", "d", "m"⟩ none 7 42 = .ok ⟨7, "", "", "", 42, 42⟩ :=
  (c8_wallet_creation ⟨"alice", "d", "m"⟩ none 7 42).2.1 rfl

/-- C10: funding with amount zero is a no-op — both closures return a nil
`toSign` and nil error, the transaction is untouched, and the `used`
reservation set is unchanged. -/
theorem c10_zero_amount :
    (∀ σ txn utxos changeAddr used pool,
      scFundTxn σ txn 0 utxos changeAddr used pool = .ok (txn, [], used))
    ∧ (∀ σ txn utxos changeAddr claimAddr used pool,
      sfFundTxn σ txn 0 utxos changeAddr claimAddr used pool = .ok (txn, [], used)) :=
  ⟨fun _ _ _ _ _ _ => rfl, fun _ _ _ _ _ _ _ => rfl⟩

/-- C4: for every fund request with positive amount, over any shuffle of the
candidates: the call fails with the insufficient-balance error exactly when
the eligible candidates total less than the amount; when the selected sum
exceeds the amount and the change address is void it fails with the
change-address-required error; and on success the selected sum covers the
amount, a sum strictly above the amount yields exactly one change output of
the difference paying the (non-void) change address, an exact sum yields no
change output, and every selected element was eligible (neither reserved nor
mempool-spent). -/
theorem c4_fund_algorithm (σ : List SiacoinElement → List SiacoinElement)
    (txn : Transaction) (amount : Nat) (utxos : List SiacoinElement)
    (changeAddr : Addr) (used : List Hash256) (pool : List Transaction)
    (hamt : 0 < amount) (hperm : (σ utxos).Perm utxos) :
    (scFundTxn σ txn amount utxos changeAddr used pool = .error insufficientBalanceErr
      ↔ scEligTotal used (scInPool pool) utxos < amount)
    ∧ (amount < (scSelected σ amount utxos used pool).2 → changeAddr = voidAddress →
        scFundTxn σ txn amount utxos changeAddr used pool = .error changeAddressRequiredErr)
    ∧ (∀ txn' ts us,
        scFundTxn σ txn amount utxos changeAddr used pool = .ok (txn', ts, us) →
          amount ≤ (scSelected σ amount utxos used pool).2
          ∧ (amount < (scSelected σ amount utxos used pool).2 →
              changeAddr ≠ voidAddress ∧
              txn'.siacoinOutputs = txn.siacoinOutputs ++
                [⟨(scSelected σ amount utxos used pool).2 - amount, changeAddr⟩])
          ∧ ((scSelected σ amount utxos used pool).2 = amount →
              txn'.siacoinOutputs = txn.siacoinOutputs)
          ∧ (∀ e ∈ (scSelected σ amount utxos used pool).1,
              scEligible used (scInPool pool) e = true)) := by
  have hne : ¬amount = 0 := Nat.pos_iff_ne_zero.mp hamt
  have hiff : amount ≤ (scSelected σ amount utxos used pool).2 ↔
      amount ≤ scEligTotal used (scInPool pool) utxos := by
    unfold scSelected
    rw [scFundLoop_reaches amount used (scInPool pool) (σ utxos) [] 0,
      Nat.zero_add, scEligTotal_perm hperm]
  refine ⟨⟨fun h => ?_, fun h => ?_⟩, fun hgt hvoid => ?_, fun txn' ts us h => ?_⟩
  · by_contra hc
    have hsel : ¬(scSelected σ amount utxos used pool).2 < amount := by
      have := hiff
      omega
    unfold scFundTxn at h
    rw [if_neg hne, if_neg hsel] at h
    by_cases hgt : amount < (scSelected σ amount utxos used pool).2
    · rw [if_pos hgt] at h
      by_cases hvoid : changeAddr = voidAddress
      · rw [if_pos hvoid] at h
        injection h with h
        exact absurd h (by decide)
      · rw [if_neg hvoid] at h
        exact absurd h (by simp)
    · rw [if_neg hgt] at h
      exact absurd h (by simp)
  · have hsel : (scSelected σ amount utxos used pool).2 < amount := by
      have := hiff
      omega
    unfold scFundTxn
    rw [if_neg hne, if_pos hsel]
  · unfold scFundTxn
    rw [if_neg hne, if_neg (by omega), if_pos hgt, if_pos hvoid]
  · unfold scFundTxn at h
    rw [if_neg hne] at h
    by_cases hins : (scSelected σ amount utxos used pool).2 < amount
    · rw [if_pos hins] at h
      exact absurd h (by simp)
    · rw [if_neg hins] at h
      refine ⟨by omega, fun hgt => ?_, fun heq => ?_, fun e he => ?_⟩
      · rw [if_pos hgt] at h
        by_cases hvoid : changeAddr = voidAddress
        · rw [if_pos hvoid] at h
          exact absurd h (by simp)
        · rw [if_neg hvoid] at h
          injection h with h
          injection h with h1 h
          exact ⟨hvoid, by rw [← h1]⟩
      · rw [if_neg (by omega : ¬amount < (scSelected σ amount utxos used pool).2)] at h
        injection h with h
        injection h with h1 h
        rw [← h1]
      · unfold scSelected at he
        rcases scFundLoop_sel amount used (scInPool pool) (σ utxos) [] 0 e he with h' | h'
        · exact absurd h' (List.not_mem_nil e)
        · exact h'

/-- C4 witness: a wallet holding one eligible output of value 5 can fund
amount 3, so the call does not fail with the insufficient-balance error. -/
theorem c4_fund_algorithm_witness :
    scFundTxn id txn0 3 c4utxos 4 [] [] ≠ .error insufficientBalanceErr := by
  have h := (c4_fund_algorithm id txn0 3 c4utxos 4 [] []
    (by decide) (List.Perm.refl _)).1
  intro hc
  have := h.mp hc
  revert this
  decide

/-- C5: for every successful fund or fundsf call, no returned `toSign` id was
reserved at the start of the call, every `toSign` id is in the reservation
set the call leaves behind, exactly one transaction input is appended per
`toSign` id, and consequently two consecutive funding calls (the second
starting from the first's reservation set) cannot return a common output id. -/
theorem c5_reservation_invariant :
    (∀ σ txn amount utxos changeAddr used pool txn' ts us,
      scFundTxn σ txn amount utxos changeAddr used pool = .ok (txn', ts, us) →
        (∀ i ∈ ts, i ∉ used) ∧ (∀ i ∈ ts, i ∈ us) ∧
        txn'.siacoinInputs = txn.siacoinInputs ++ ts.map SiacoinInput.mk)
    ∧ (∀ σ txn amount utxos changeAddr claimAddr used pool txn' ts us,
      sfFundTxn σ txn amount utxos changeAddr claimAddr used pool = .ok (txn', ts, us) →
        (∀ i ∈ ts, i ∉ used) ∧ (∀ i ∈ ts, i ∈ us) ∧
        txn'.siafundInputs = txn.siafundInputs ++ ts.map (fun i => ⟨i, claimAddr⟩))
    ∧ (∀ σ₁ txn₁ amount₁ utxos₁ ca₁ pool₁ used txn₁' ts₁ us₁
         σ₂ txn₂ amount₂ utxos₂ ca₂ pool₂ txn₂' ts₂ us₂,
      scFundTxn σ₁ txn₁ amount₁ utxos₁ ca₁ used pool₁ = .ok (txn₁', ts₁, us₁) →
      scFundTxn σ₂ txn₂ amount₂ utxos₂ ca₂ us₁ pool₂ = .ok (txn₂', ts₂, us₂) →
      ∀ i ∈ ts₁, i ∉ ts₂)
    ∧ (∀ σ₁ txn₁ amount₁ utxos₁ ca₁ cl₁ pool₁ used txn₁' ts₁ us₁
         σ₂ txn₂ amount₂ utxos₂ ca₂ cl₂ pool₂ txn₂' ts₂ us₂,
      sfFundTxn σ₁ txn₁ amount₁ utxos₁ ca₁ cl₁ used pool₁ = .ok (txn₁', ts₁, us₁) →
      sfFundTxn σ₂ txn₂ amount₂ utxos₂ ca₂ cl₂ us₁ pool₂ = .ok (txn₂', ts₂, us₂) →
      ∀ i ∈ ts₁, i ∉ ts₂) := by
  refine ⟨?_, ?_, ?_, ?_⟩
  · intro σ txn amount utxos changeAddr used pool txn' ts us h
    exact ⟨scFundTxn_toSign_not_used h, scFundTxn_toSign_reserved h, scFundTxn_inputs h⟩
  · intro σ txn amount utxos changeAddr claimAddr used pool txn' ts us h
    exact ⟨sfFundTxn_toSign_not_used h, sfFundTxn_toSign_reserved h, sfFundTxn_inputs h⟩
  · intro σ₁ txn₁ amount₁ utxos₁ ca₁ pool₁ used txn₁' ts₁ us₁
      σ₂ txn₂ amount₂ utxos₂ ca₂ pool₂ txn₂' ts₂ us₂ h1 h2 i hi hi2
    exact scFundTxn_toSign_not_used h2 i hi2 (scFundTxn_toSign_reserved h1 i hi)
  · intro σ₁ txn₁ amount₁ utxos₁ ca₁ cl₁ pool₁ used txn₁' ts₁ us₁
      σ₂ txn₂ amount₂ utxos₂ ca₂ cl₂ pool₂ txn₂' ts₂ us₂ h1 h2 i hi hi2
    exact sfFundTxn_toSign_not_used h2 i hi2 (sfFundTxn_toSign_reserved h1 i hi)

/-- C5 witness: with two outputs of value 5, a first call selecting output 1
and a second call (over the updated reservation set) selecting output 2 have
disjoint `toSign` lists: output 1 is not in the second call's list. -/
theorem c5_reservation_invariant_witness : (1 : Hash256) ∉ ([2] : List Hash256) :=
  c5_reservation_invariant.2.2.1 id txn0 5 c5utxos 4 [] []
    ⟨0, [⟨1⟩], [], [], []⟩ [1] [1]
    id txn0 5 c5utxos 4 [] ⟨0, [⟨2⟩], [], [], []⟩ [2] [2, 1]
    rfl rfl 1 (by decide)

/-- C9: both funding handlers fetch only the first 1000 unspent outputs
(offset 0, limit 1000), so a wallet holding 1001 outputs of value 1 cannot
fund amount 1001 — the calls fail with the insufficient-balance error for
every shuffle — even though the wallet's total balance is 1001 ≥ 1001. -/
theorem c9_funding_cap (σsc : List SiacoinElement → List SiacoinElement)
    (σsf : List SiafundElement → List SiafundElement)
    (h1 : (σsc (paginate c9scOutputs 0 1000)).Perm (paginate c9scOutputs 0 1000))
    (h2 : (σsf (paginate c9sfOutputs 0 1000)).Perm (paginate c9sfOutputs 0 1000)) :
    walletsFundHandler σsc c9scOutputs txn0 1001 1 [] [] = .error insufficientBalanceErr
    ∧ 1001 ≤ scTotalValue c9scOutputs
    ∧ walletsFundSFHandler σsf c9sfOutputs txn0 1001 1 6 [] [] = .error insufficientBalanceErr
    ∧ 1001 ≤ sfTotalValue c9sfOutputs := by
  have hlenP : (paginate c9scOutputs 0 1000).length = 1000 := by
    unfold paginate c9scOutputs
    rw [List.drop_zero, List.length_take, List.length_map, List.length_range]
    omega
  have hvalP : ∀ x ∈ paginate c9scOutputs 0 1000, x.siacoinOutput.value = 1 := by
    intro x hx
    unfold paginate c9scOutputs at hx
    rw [List.drop_zero] at hx
    rcases List.mem_map.mp (List.take_subset _ _ hx) with ⟨i, _, rfl⟩
    rfl
  have helig : ∀ a ∈ paginate c9scOutputs 0 1000, scEligible [] (scInPool []) a = true :=
    fun a _ => rfl
  have htot : scEligTotal [] (scInPool []) (σsc (paginate c9scOutputs 0 1000)) = 1000 := by
    rw [scEligTotal_perm h1]
    unfold scEligTotal
    rw [List.filter_eq_self.mpr helig, sum_map_one _ _ hvalP, hlenP]
  have hsel : (scSelected σsc 1001 (paginate c9scOutputs 0 1000) [] []).2 < 1001 := by
    by_contra hc
    have hr := (scFundLoop_reaches 1001 [] (scInPool [])
      (σsc (paginate c9scOutputs 0 1000)) [] 0).mp (by
        unfold scSelected at hc
        omega)
    rw [Nat.zero_add, htot] at hr
    omega
  have hlenP' : (σsf (paginate c9sfOutputs 0 1000)).length = 1000 := by
    rw [h2.length_eq]
    unfold paginate c9sfOutputs
    rw [List.drop_zero, List.length_take, List.length_map, List.length_range]
    omega
  have hvalP' : ∀ x ∈ σsf (paginate c9sfOutputs 0 1000), x.siafundOutput.value = 1 := by
    intro x hx
    have hx' := h2.mem_iff.mp hx
    unfold paginate c9sfOutputs at hx'
    rw [List.drop_zero] at hx'
    rcases List.mem_map.mp (List.take_subset _ _ hx') with ⟨i, _, rfl⟩
    rfl
  have hself : (sfSelected σsf 1001 (paginate c9sfOutputs 0 1000) [] []).2 < 1001 := by
    unfold sfSelected
    have hb := sfFundLoop_sum_le 1001 [] (sfInPool [])
      (σsf (paginate c9sfOutputs 0 1000)) [] 0 hvalP'
      (by rw [hlenP']; decide)
    rw [hlenP'] at hb
    omega
  refine ⟨?_, ?_, ?_, ?_⟩
  · simp only [walletsFundHandler, scFundTxn]
    rw [if_neg (by decide : ¬(1001 = 0)), if_pos hsel]
  · unfold scTotalValue c9scOutputs
    rw [sum_map_one _ _ (by
      intro x hx
      rcases List.mem_map.mp hx with ⟨i, _, rfl⟩
      rfl)]
    rw [List.length_map, List.length_range]
  · simp only [walletsFundSFHandler, sfFundTxn]
    rw [if_neg (by decide : ¬(1001 = 0)), if_pos hself]
  · unfold sfTotalValue c9sfOutputs
    rw [sum_map_one _ _ (by
      intro x hx
      rcases List.mem_map.mp hx with ⟨i, _, rfl⟩
      rfl)]
    rw [List.length_map, List.length_range]

set_option maxRecDepth 4000 in
/-- C9 witness: the identity shuffle. -/
theorem c9_funding_cap_witness :
    walletsFundHandler id c9scOutputs txn0 1001 1 [] [] = .error insufficientBalanceErr
    ∧ walletsFundSFHandler id c9sfOutputs txn0 1001 1 6 [] [] = .error insufficientBalanceErr :=
  ⟨(c9_funding_cap id id (List.Perm.refl _) (List.Perm.refl _)).1,
   (c9_funding_cap id id (List.Perm.refl _) (List.Perm.refl _)).2.2.1⟩

/-- C6 (amended): outputs created and spent inside the same block by the
block's v1 transactions (the only ones the ephemeral walk visits) never touch
the store: in both element loops of the applier, and — provided the relevance
lookup answers (with any verdict) — in both element loops of the reverter,
processing the diffs is identical to processing them with every
ephemeral-marked entry removed, so such entries add no element, remove no
element and change no balance; v2-created outputs are not covered. -/
theorem c6_ephemeral_skipped :
    (∀ tx height b diffs acc,
      applyScFold tx height (ephLookup (ephemeralMap b)) diffs acc =
        applyScFold tx height (ephLookup (ephemeralMap b))
          (diffs.filter (fun d => !ephLookup (ephemeralMap b) d.1.id)) acc)
    ∧ (∀ tx b diffs acc e?,
      applySfFold tx (ephLookup (ephemeralMap b)) diffs (acc, e?) =
        applySfFold tx (ephLookup (ephemeralMap b))
          (diffs.filter (fun d => !ephLookup (ephemeralMap b) d.1.id)) (acc, e?))
    ∧ (∀ tx height b diffs acc,
      (∀ d ∈ diffs, ephLookup (ephemeralMap b) d.1.id = true →
        ∃ bv, tx.addressRelevant d.1.siacoinOutput.address = .ok bv) →
      revertScFold tx height (ephLookup (ephemeralMap b)) diffs acc =
        revertScFold tx height (ephLookup (ephemeralMap b))
          (diffs.filter (fun d => !ephLookup (ephemeralMap b) d.1.id)) acc)
    ∧ (∀ tx b diffs st,
      (∀ d ∈ diffs, ephLookup (ephemeralMap b) d.1.id = true →
        ∃ bv, tx.addressRelevant d.1.siafundOutput.address = .ok bv) →
      revertSfFold tx (ephLookup (ephemeralMap b)) diffs st =
        revertSfFold tx (ephLookup (ephemeralMap b))
          (diffs.filter (fun d => !ephLookup (ephemeralMap b) d.1.id)) st) :=
  ⟨fun tx height b diffs acc =>
      applyScFold_filter_eph tx height (ephLookup (ephemeralMap b)) diffs acc,
   fun tx b diffs acc e? =>
      applySfFold_filter_eph tx (ephLookup (ephemeralMap b)) diffs acc e?,
   fun tx height b diffs acc h =>
      revertScFold_filter_eph tx height (ephLookup (ephemeralMap b)) diffs acc h,
   fun tx b diffs st h =>
      revertSfFold_filter_eph tx (ephLookup (ephemeralMap b)) diffs st h⟩

/-- C6 witness: a v1 transaction spending its own outputs — the reverter's
loops treat its element diffs exactly as if they were absent. -/
theorem c6_ephemeral_skipped_witness :
    revertScFold c7tx 5 (ephLookup (ephemeralMap c6wblock)) c6wscDiffs c6wracc =
      revertScFold c7tx 5 (ephLookup (ephemeralMap c6wblock))
        (c6wscDiffs.filter (fun d => !ephLookup (ephemeralMap c6wblock) d.1.id)) c6wracc
    ∧ revertSfFold c7tx (ephLookup (ephemeralMap c6wblock)) c6wsfDiffs (c6wracc, none, none) =
      revertSfFold c7tx (ephLookup (ephemeralMap c6wblock))
        (c6wsfDiffs.filter (fun d => !ephLookup (ephemeralMap c6wblock) d.1.id))
        (c6wracc, none, none) :=
  ⟨c6_ephemeral_skipped.2.2.1 c7tx 5 c6wblock c6wscDiffs c6wracc
      (fun _ _ _ => ⟨false, rfl⟩),
   c6_ephemeral_skipped.2.2.2 c7tx c6wblock c6wsfDiffs (c6wracc, none, none)
      (fun _ _ _ => ⟨false, rfl⟩)⟩

/-- C7: whenever `ApplyChainUpdates` succeeds, its mutating store calls are
exactly, in order: balances, add siacoin elements, remove siacoin elements,
add siafund elements, remove siafund elements, events, siacoin state
elements, siafund state elements — and the state-element lists written back
exclude every element spent during the batch (the ids of the remove calls). -/
theorem c7_flush_order (tx : TxModel) (updates : List ApplyUpdate)
    (trace : List WriteOp) (h : ApplyChainUpdates tx updates = .ok trace) :
    ∃ bc asc rsc asf rsf evs scse sfse,
      trace = [ .updateBalances bc, .addSiacoinElements asc,
                .removeSiacoinElements rsc, .addSiafundElements asf,
                .removeSiafundElements rsf, .addEvents evs,
                .updateSiacoinStateElements scse, .updateSiafundStateElements sfse ]
      ∧ (∀ se ∈ scse, se.id ∉ rsc) ∧ (∀ se ∈ sfse, se.id ∉ rsf) := by
  unfold ApplyChainUpdates at h
  split at h
  · exact absurd h (by simp)
  · split at h
    · exact absurd h (by simp)
    · split at h
      · exact absurd h (by simp)
      · injection h with h
        subst h
        refine ⟨_, _, _, _, _, _, _, _, rfl, fun se hse => ?_, fun se hse => ?_⟩
        · exact not_mem_of_contains_eq_false (by simpa using (List.mem_filter.mp hse).2)
        · exact not_mem_of_contains_eq_false (by simpa using (List.mem_filter.mp hse).2)

/-- C7 witness: an empty batch over an empty store flushes the eight write
calls in order with empty payloads. -/
theorem c7_flush_order_witness :
    ∃ bc asc rsc asf rsf evs scse sfse,
      ([ .updateBalances [], .addSiacoinElements [], .removeSiacoinElements [],
         .addSiafundElements [], .removeSiafundElements [], .addEvents [],
         .updateSiacoinStateElements [], .updateSiafundStateElements [] ] : List WriteOp) =
        [ .updateBalances bc, .addSiacoinElements asc,
          .removeSiacoinElements rsc, .addSiafundElements asf,
          .removeSiafundElements rsf, .addEvents evs,
          .updateSiacoinStateElements scse, .updateSiafundStateElements sfse ]
      ∧ (∀ se ∈ scse, se.id ∉ rsc) ∧ (∀ se ∈ sfse, se.id ∉ rsf) :=
  c7_flush_order c7tx []
    [ .updateBalances [], .addSiacoinElements [], .removeSiacoinElements [],
      .addSiafundElements [], .removeSiafundElements [], .addEvents [],
      .updateSiacoinStateElements [], .updateSiafundStateElements [] ] rfl

end Walletd
